import Mathlib

/-!
Verification development for the FIFA WWC player-statistics CSV pipeline
(`midterm.py`).  The pipeline's pure functions are shallowly embedded here:
rows are lists of strings (lists of `Cell` once numeric columns are
appended), Python ints are `ℤ`, Python floats produced by the pipeline are
modelled as `ℚ` (every value the pipeline compares or rounds is a short
decimal, where rational and double orderings agree), and fallible steps
return `Option`.
-/

/-- A data row as read from the CSV file: an ordered list of string fields.
Python field access `row[i]` is modelled by `List.getD` (out-of-range access
raises in Python; all pipeline uses are in range). -/
abbrev Row := List String

/-- Accumulator for decimal-digit parsing: consumes characters, failing on the
first non-digit.  Models the digit scan inside Python's `int()`. -/
def natOfDigitsAux : List Char → ℕ → Option ℕ
  | [], acc => some acc
  | c :: cs, acc =>
      if c.isDigit then natOfDigitsAux cs (acc * 10 + (c.toNat - 48)) else none

/-- Models Python's `int()` applied to a CSV field: an optional leading minus
sign followed by decimal digits.  Inputs on which Python's `int()` would raise
`ValueError` (and abort the pipeline) are given the default value `0`; every
claim below uses this same model on both sides, and all numeric fields of the
pipeline's input parse successfully. -/
def pyInt (s : String) : ℤ :=
  match s.data with
  | '-' :: cs => -(((natOfDigitsAux cs 0).getD 0 : ℕ) : ℤ)
  | cs => ((natOfDigitsAux cs 0).getD 0 : ℤ)

/-- Python's `round` on the pipeline's rationals: round half to even
(banker's rounding), returning an integer. -/
def pyRound (q : ℚ) : ℤ :=
  let n := ⌊q⌋
  let r := q - n
  if r < 1 / 2 then n
  else if 1 / 2 < r then n + 1
  else if 2 ∣ n then n else n + 1

/-- Python's two-argument `round(q, p)`: round to `p` decimal digits. -/
def roundTo (q : ℚ) (p : ℕ) : ℚ :=
  (pyRound (q * 10 ^ p) : ℚ) / 10 ^ p

/-- Embeds `calculate_shot_conversion_rate(goals, shots, precision)`:
`round(goals / shots, precision)`, where the `try`/`except ZeroDivisionError`
returning `0.0` is modelled by the `shots = 0` test (Python division raises
exactly when the divisor is zero). -/
def calculate_shot_conversion_rate (goals shots : ℤ) (precision : ℕ) : ℚ :=
  if shots = 0 then 0 else roundTo ((goals : ℚ) / (shots : ℚ)) precision

/-- Embeds `clean_squad(squad) = (squad[:2].upper(), squad[3:])`, written over
the character list: Python slicing clamps and never raises.  The `.upper()`
step is modelled per character by `Char.toUpper`, which agrees with Python's
`str.upper()` exactly on ASCII characters — every squad value in the
dataset is ASCII.  Python's full Unicode case mapping on other characters
(for example sharp s uppercasing to a two-character string) is outside this
model, so theorems about the first component are stated on ASCII prefixes,
on concrete ASCII strings, or parametrically in the returned value. -/
def clean_squad (squad : String) : String × String :=
  (⟨(squad.data.take 2).map Char.toUpper⟩, ⟨squad.data.drop 3⟩)

/-- Embeds `format_player_position(position) = position.replace(",", "|")`:
for a one-character pattern and replacement, `str.replace` is exactly the
character map sending `,` to `|`. -/
def format_player_position (position : String) : String :=
  ⟨position.data.map fun c => if c = ',' then '|' else c⟩

/-- Embeds `get_multi_position_players(players, pos_idx)`: the loop appending
every player whose `"Pos"` field splits on `"|"` into more than one part is
`List.filter`. -/
def get_multi_position_players (players : List Row) (pos_idx : ℕ) : List Row :=
  players.filter fun player => decide (1 < ((player.getD pos_idx "").splitOn "|").length)

/-- Embeds `get_team(players, squad_idx, squad)`: the loop appending every
player whose `"Squad"` field matches `squad` case-insensitively is
`List.filter`. -/
def get_team (players : List Row) (squad_idx : ℕ) (squad : String) : List Row :=
  players.filter fun player => (player.getD squad_idx "").toLower == squad.toLower

/-- The goal count the code extracts from a row: `int(player[gls_idx])`. -/
def goalsOf (player : Row) (gls_idx : ℕ) : ℤ :=
  pyInt (player.getD gls_idx "")

/-- The loop of `get_top_scorer`: state is the accumulated list and
`most_goals`; a strictly larger positive goal count clears the accumulator
(`list.clear()` then `append`), an equal positive count appends. -/
def topScorerLoop (gls_idx : ℕ) : List Row → List Row → ℤ → List Row
  | [], acc, _ => acc
  | player :: players, acc, most =>
      if 0 < goalsOf player gls_idx ∧ most < goalsOf player gls_idx then
        topScorerLoop gls_idx players [player] (goalsOf player gls_idx)
      else if 0 < goalsOf player gls_idx ∧ goalsOf player gls_idx = most then
        topScorerLoop gls_idx players (acc ++ [player]) most
      else
        topScorerLoop gls_idx players acc most

/-- Embeds `get_top_scorer(players, gls_idx)`: runs the loop with an empty
accumulator and `most_goals = 0`. -/
def get_top_scorer (players : List Row) (gls_idx : ℕ) : List Row :=
  topScorerLoop gls_idx players [] 0

/-- The running maximum `most_goals` reaches after scanning `players`,
starting from `most`. -/
def maxFrom (gls_idx : ℕ) (most : ℤ) (players : List Row) : ℤ :=
  players.foldl (fun m player => max m (goalsOf player gls_idx)) most

/-- The maximum goal count tracked by `get_top_scorer` over a whole list
(starting from the initial `most_goals = 0`). -/
def maxGoals (players : List Row) (gls_idx : ℕ) : ℤ :=
  maxFrom gls_idx 0 players

/-- Embeds Python's `list.insert(i, x)`: inserts before position `i`,
clamping `i` to the list length (so an out-of-range `i` appends). -/
def pyInsert (l : List α) (i : ℕ) (x : α) : List α :=
  l.take i ++ x :: l.drop i

/-- The per-row body of Challenge 3's loop: reformat the `"Pos"` field in
place, split the `"Squad"` field with `clean_squad`, insert the country code
at `squad_idx`, and overwrite position `squad_idx + 1` with the bare squad
name.  Python's in-place subscript assignment is `List.set`. -/
def reshapeRow (pos_idx squad_idx : ℕ) (player : Row) : Row :=
  let p1 := player.set pos_idx (format_player_position (player.getD pos_idx ""))
  let cs := clean_squad (p1.getD squad_idx "")
  (pyInsert p1 squad_idx cs.1).set (squad_idx + 1) cs.2

/-- Challenge 3's header update: insert `"Country_Code"` at `squad_idx`. -/
def reshapeHeaders (squad_idx : ℕ) (headers : List String) : List String :=
  pyInsert headers squad_idx "Country_Code"

/-- Embeds `get_player_shooting_numbers(player, slice_)` for the slice
`slice(lo, hi)`: take the fields at positions `lo ≤ j < hi` (Python slices
clamp) and convert each to an integer. -/
def get_player_shooting_numbers (player : Row) (lo hi : ℕ) : List ℤ :=
  ((player.drop lo).take (hi - lo)).map pyInt

/-- One field of a pipeline row once floats have been appended: Python rows
are heterogeneous lists holding strings and floats. -/
inductive Cell where
  | str : String → Cell
  | num : ℚ → Cell
deriving DecidableEq

/-- The per-row body of Challenge 10's loop: unpack the three shooting
numbers (Python raises, aborting the run, unless the slice yields exactly
three values — modelled by `none`) and append the two conversion rates
computed with precision 3. -/
def enrichRow (lo hi : ℕ) (player : Row) : Option (List Cell) :=
  match get_player_shooting_numbers player lo hi with
  | [goals, shots, shots_on_target] =>
      some (player.map Cell.str ++
        [Cell.num (calculate_shot_conversion_rate goals shots 3),
         Cell.num (calculate_shot_conversion_rate goals shots_on_target 3)])
  | _ => none

/-- Challenge 10's header update: extend with the two derived column names. -/
def enrichHeaders (headers : List String) : List String :=
  headers ++ ["shots_conv_rate", "shots_on_target_conv_rate"]

/-- A team summary row as assembled in Challenge 11:
`[country, goals, shots, shots_on_target, shots_conv_rate,
shots_on_target_conv_rate]`. -/
structure TeamMetrics where
  country : String
  goals : ℤ
  shots : ℤ
  shots_on_target : ℤ
  shots_conv_rate : ℚ
  shots_on_target_conv_rate : ℚ
deriving DecidableEq

/-- The tier label Challenge 12 computes from `conv_rate = float(team[-1])`,
the shots-on-target conversion rate: the exact `if`/`elif` chain of the
source. -/
def efficiency_rating (conv_rate : ℚ) : String :=
  if conv_rate ≥ 0.4 then "Top Tier"
  else if conv_rate ≥ 0.3 ∧ conv_rate < 0.4 then "Upper Middle Tier"
  else if conv_rate ≥ 0.2 ∧ conv_rate < 0.3 then "Lower Middle Tier"
  else "Bottom Tier"

/-- The per-row body of Challenge 12's loop: `team.append(rating)`, modelled
by pairing the unchanged summary row with the appended label. -/
def rateTeam (t : TeamMetrics) : TeamMetrics × String :=
  (t, efficiency_rating t.shots_on_target_conv_rate)

/-- The comparison performed by `sorted(teams, key=lambda x: (-float(x[-2]), x[0]))`
on rated team rows: ascending lexicographic order on the key tuple
`(-shots_on_target_conv_rate, country)`. -/
def teamSortLe (a b : TeamMetrics × String) : Prop :=
  b.1.shots_on_target_conv_rate < a.1.shots_on_target_conv_rate ∨
    (a.1.shots_on_target_conv_rate = b.1.shots_on_target_conv_rate ∧
      a.1.country ≤ b.1.country)

instance : DecidableRel teamSortLe := fun a b => by
  unfold teamSortLe
  infer_instance

instance : IsTotal (TeamMetrics × String) teamSortLe where
  total a b := by
    unfold teamSortLe
    rcases lt_trichotomy a.1.shots_on_target_conv_rate b.1.shots_on_target_conv_rate
      with h | h | h
    · exact Or.inr (Or.inl h)
    · rcases le_total a.1.country b.1.country with hc | hc
      · exact Or.inl (Or.inr ⟨h, hc⟩)
      · exact Or.inr (Or.inr ⟨h.symm, hc⟩)
    · exact Or.inl (Or.inl h)

instance : IsTrans (TeamMetrics × String) teamSortLe where
  trans a b c hab hbc := by
    unfold teamSortLe at *
    rcases hab with h1 | ⟨h1, hc1⟩ <;> rcases hbc with h2 | ⟨h2, hc2⟩
    · exact Or.inl (lt_trans h2 h1)
    · exact Or.inl (h2 ▸ h1)
    · exact Or.inl (h1 ▸ h2)
    · exact Or.inr ⟨h1.trans h2, hc1.trans hc2⟩

/-- Embeds Challenge 12.4, `sorted(teams, key=lambda x: (-float(x[-2]), x[0]))`:
Python's `sorted` is a stable sort by the key order, modelled by the (equally
stable) insertion sort with the same comparison. -/
def sortTeams (teams : List (TeamMetrics × String)) : List (TeamMetrics × String) :=
  teams.insertionSort teamSortLe

theorem maxFrom_cons (i : ℕ) (m : ℤ) (p : Row) (ps : List Row) :
    maxFrom i m (p :: ps) = maxFrom i (max m (goalsOf p i)) ps := rfl

theorem le_maxFrom (i : ℕ) (m : ℤ) (ps : List Row) : m ≤ maxFrom i m ps := by
  induction ps generalizing m with
  | nil => simp [maxFrom]
  | cons p ps ih =>
      rw [maxFrom_cons]
      exact le_trans (le_max_left _ _) (ih _)

theorem topScorerLoop_spec (i : ℕ) (ps : List Row) :
    ∀ (acc : List Row) (most : ℤ), 0 ≤ most →
      topScorerLoop i ps acc most =
        if most < maxFrom i most ps then
          ps.filter fun p => goalsOf p i == maxFrom i most ps
        else
          acc ++ ps.filter fun p => decide (0 < goalsOf p i) && (goalsOf p i == most) := by
  induction ps with
  | nil =>
      intro acc most _
      simp [topScorerLoop, maxFrom]
  | cons p ps ih =>
      intro acc most hmost
      set g := goalsOf p i with hg
      rw [maxFrom_cons]
      by_cases hA : 0 < g ∧ most < g
      · have hmax : max most g = g := max_eq_right (le_of_lt hA.2)
        rw [hmax]
        have hM : g ≤ maxFrom i g ps := le_maxFrom i g ps
        have hmM : most < maxFrom i g ps := lt_of_lt_of_le hA.2 hM
        rw [topScorerLoop, if_pos hA, ih [p] g (le_of_lt hA.1), if_pos hmM]
        rcases lt_or_eq_of_le hM with hlt | heq
        · rw [if_pos hlt, List.filter_cons]
          have : ¬ (g == maxFrom i g ps) = true := by
            simp only [beq_iff_eq]
            exact ne_of_lt hlt
          simp only [this, if_neg, Bool.false_eq_true, not_false_eq_true, if_neg this]
        · rw [if_neg (by omega), List.filter_cons]
          have hpg : (g == maxFrom i g ps) = true := by simp [← heq]
          rw [if_pos hpg, ← heq]
          have : (ps.filter fun q => decide (0 < goalsOf q i) && (goalsOf q i == g)) =
              ps.filter fun q => goalsOf q i == g := by
            apply List.filter_congr
            intro q _
            by_cases hq : goalsOf q i = g
            · simp [hq, hA.1]
            · simp [hq]
          rw [this]
          simp
      · by_cases hB : 0 < g ∧ g = most
        · have hmax : max most g = most := max_eq_left (le_of_eq hB.2)
          rw [hmax]
          rw [topScorerLoop, if_neg hA, if_pos hB, ih (acc ++ [p]) most hmost]
          by_cases hmM : most < maxFrom i most ps
          · rw [if_pos hmM, if_pos hmM, List.filter_cons]
            have : ¬ (g == maxFrom i most ps) = true := by
              simp only [beq_iff_eq]
              omega
            rw [if_neg this]
          · rw [if_neg hmM, if_neg hmM, List.filter_cons]
            have hpg : (decide (0 < g) && (g == most)) = true := by
              simp only [Bool.and_eq_true, decide_eq_true_eq, beq_iff_eq]
              omega
            rw [if_pos hpg]
            simp
        · have hg0 : g ≤ 0 ∨ g < most := by
            rcases le_or_lt g 0 with h | h
            · exact Or.inl h
            · right
              rcases lt_trichotomy g most with h2 | h2 | h2
              · exact h2
              · exact absurd ⟨h, h2⟩ hB
              · exact absurd ⟨h, h2⟩ hA
          have hmax : max most g = most := by
            rcases hg0 with h | h
            · exact max_eq_left (le_trans h hmost)
            · exact max_eq_left (le_of_lt h)
          rw [hmax]
          rw [topScorerLoop, if_neg hA, if_neg hB, ih acc most hmost]
          by_cases hmM : most < maxFrom i most ps
          · rw [if_pos hmM, if_pos hmM, List.filter_cons]
            have : ¬ (g == maxFrom i most ps) = true := by
              simp only [beq_iff_eq]
              omega
            rw [if_neg this]
          · rw [if_neg hmM, if_neg hmM, List.filter_cons]
            have : ¬ (decide (0 < g) && (g == most)) = true := by
              simp only [Bool.and_eq_true, decide_eq_true_eq, beq_iff_eq]
              omega
            rw [if_neg this]

theorem get_top_scorer_eq (players : List Row) (i : ℕ) :
    get_top_scorer players i =
      if 0 < maxGoals players i then
        players.filter fun p => goalsOf p i == maxGoals players i
      else [] := by
  have h := topScorerLoop_spec i players [] 0 le_rfl
  rw [get_top_scorer, h]
  unfold maxGoals
  by_cases hM : 0 < maxFrom i 0 players
  · rw [if_pos hM, if_pos hM]
  · rw [if_neg hM, if_neg hM]
    have h0 : maxFrom i 0 players = 0 := le_antisymm (not_lt.mp hM) (le_maxFrom i 0 players)
    simp only [List.nil_append]
    apply List.filter_eq_nil_iff.mpr
    intro q _
    simp only [Bool.and_eq_true, decide_eq_true_eq, beq_iff_eq, not_and]
    omega

theorem pyInsert_length (l : List α) (i : ℕ) (x : α) :
    (pyInsert l i x).length = l.length + 1 := by
  simp [pyInsert]
  omega

theorem getElem?_pyInsert_self (l : List α) (i : ℕ) (x : α) (h : i ≤ l.length) :
    (pyInsert l i x)[i]? = some x := by
  have ht : (l.take i).length = i := by
    simp [List.length_take]
    omega
  unfold pyInsert
  rw [List.getElem?_append_right (by rw [ht]), ht]
  simp

theorem efficiency_rating_top (r : ℚ) :
    efficiency_rating r = "Top Tier" ↔ 0.4 ≤ r := by
  unfold efficiency_rating
  split_ifs with h1 h2 h3
  · exact iff_of_true rfl h1
  · exact iff_of_false (by decide) (not_le.mpr h2.2)
  · exact iff_of_false (by decide) (by intro h; linarith [h3.2])
  · exact iff_of_false (by decide) h1

theorem efficiency_rating_upper (r : ℚ) :
    efficiency_rating r = "Upper Middle Tier" ↔ 0.3 ≤ r ∧ r < 0.4 := by
  unfold efficiency_rating
  split_ifs with h1 h2 h3
  · exact iff_of_false (by decide) (by intro h; linarith [h.2])
  · exact iff_of_true rfl ⟨h2.1, h2.2⟩
  · exact iff_of_false (by decide) h2
  · exact iff_of_false (by decide) h2

theorem efficiency_rating_lower (r : ℚ) :
    efficiency_rating r = "Lower Middle Tier" ↔ 0.2 ≤ r ∧ r < 0.3 := by
  unfold efficiency_rating
  split_ifs with h1 h2 h3
  · exact iff_of_false (by decide) (by intro h; linarith [h.2])
  · exact iff_of_false (by decide) (by intro h; linarith [h.2, h2.1])
  · exact iff_of_true rfl ⟨h3.1, h3.2⟩
  · exact iff_of_false (by decide) h3

theorem efficiency_rating_bottom (r : ℚ) :
    efficiency_rating r = "Bottom Tier" ↔ r < 0.2 := by
  unfold efficiency_rating
  split_ifs with h1 h2 h3
  · exact iff_of_false (by decide) (by intro h; linarith)
  · exact iff_of_false (by decide) (by intro h; linarith [h2.1])
  · exact iff_of_false (by decide) (by intro h; linarith [h3.1])
  · refine iff_of_true rfl ?_
    by_contra hcon
    push_neg at hcon
    have hr4 : r < 0.4 := not_le.mp h1
    have hr3 : r < 0.3 := by
      by_contra hc
      push_neg at hc
      exact h2 ⟨hc, hr4⟩
    exact h3 ⟨hcon, hr3⟩

/-- C1: the spec asserts `calculate_shot_conversion_rate(1, 10, 3) == 0.333`;
the code computes `round(1 / 10, 3) = 0.1`, so the asserted value is wrong
(the quotient `1 / 3` would round to `0.333`, not `1 / 10`). -/
theorem spec_c1_counterexample : calculate_shot_conversion_rate 1 10 3 ≠ 0.333 := by
  norm_num [calculate_shot_conversion_rate, roundTo, pyRound]

/-- C1 (amended): `calculate_shot_conversion_rate(1, 10, 3)` returns `0.1`. -/
theorem spec_c1 : calculate_shot_conversion_rate 1 10 3 = 0.1 := by
  norm_num [calculate_shot_conversion_rate, roundTo, pyRound]

/-- C2: `get_top_scorer` returns exactly the rows whose parsed goal count
equals the maximum over the list when that maximum is positive (all ties),
returns the empty list when no row has a positive goal count, and never
returns a row with zero (or fewer) goals. -/
theorem spec_c2 (players : List Row) (gls_idx : ℕ) :
    (get_top_scorer players gls_idx =
      if 0 < maxGoals players gls_idx then
        players.filter fun p => goalsOf p gls_idx == maxGoals players gls_idx
      else [])
    ∧ ∀ p ∈ get_top_scorer players gls_idx, 0 < goalsOf p gls_idx := by
  refine ⟨get_top_scorer_eq players gls_idx, ?_⟩
  intro p hp
  rw [get_top_scorer_eq] at hp
  by_cases h : 0 < maxGoals players gls_idx
  · rw [if_pos h] at hp
    have heq : goalsOf p gls_idx = maxGoals players gls_idx := by
      simpa using List.of_mem_filter hp
    omega
  · rw [if_neg h] at hp
    simp at hp

/-- C3: on the specified ten-column header, the position-reformat plus
squad-split stage maps the sample row to the expected eleven-column row, and
inserts `"Country_Code"` immediately before `"Squad"` in the header. -/
theorem spec_c3 :
    reshapeRow
        ((["Rk", "Player", "Pos", "Squad", "Age", "Born", "90s", "Gls", "Sh", "SoT"] :
          List String).indexOf "Pos")
        ((["Rk", "Player", "Pos", "Squad", "Age", "Born", "90s", "Gls", "Sh", "SoT"] :
          List String).indexOf "Squad")
        ["1", "P", "DF,MF", "ng Nigeria", "20", "2000", "1.0", "1", "10", "4"]
      = ["1", "P", "DF|MF", "NG", "Nigeria", "20", "2000", "1.0", "1", "10", "4"]
    ∧ reshapeHeaders
        ((["Rk", "Player", "Pos", "Squad", "Age", "Born", "90s", "Gls", "Sh", "SoT"] :
          List String).indexOf "Squad")
        ["Rk", "Player", "Pos", "Squad", "Age", "Born", "90s", "Gls", "Sh", "SoT"]
      = ["Rk", "Player", "Pos", "Country_Code", "Squad", "Age", "Born", "90s", "Gls",
         "Sh", "SoT"] := by
  constructor <;> decide

/-- C4: with `shots = 0` the conversion rate is `0.0` for every `goals` and
`precision` (the recovered division-by-zero case), and for every nonzero
`shots` the function just rounds the quotient — no other fault is handled. -/
theorem spec_c4 :
    (∀ (goals : ℤ) (precision : ℕ),
      calculate_shot_conversion_rate goals 0 precision = 0)
    ∧ ∀ (goals shots : ℤ) (precision : ℕ), shots ≠ 0 →
        calculate_shot_conversion_rate goals shots precision =
          roundTo ((goals : ℚ) / (shots : ℚ)) precision := by
  constructor
  · intro goals precision
    simp [calculate_shot_conversion_rate]
  · intro goals shots precision hs
    simp [calculate_shot_conversion_rate, hs]

theorem spec_c4_witness :
    calculate_shot_conversion_rate 7 0 2 = 0
    ∧ calculate_shot_conversion_rate 1 2 3 = roundTo (((1 : ℤ) : ℚ) / ((2 : ℤ) : ℚ)) 3 :=
  ⟨spec_c4.1 7 2, spec_c4.2 1 2 3 (by decide)⟩

/-- C5: the classification stage leaves the summary row unchanged and appends
exactly one of the four tier labels, determined by the shots-on-target
conversion rate against the fixed thresholds 0.4, 0.3 and 0.2. -/
theorem spec_c5 (t : TeamMetrics) :
    (rateTeam t).1 = t
    ∧ ((rateTeam t).2 = "Top Tier" ↔ 0.4 ≤ t.shots_on_target_conv_rate)
    ∧ ((rateTeam t).2 = "Upper Middle Tier" ↔
        0.3 ≤ t.shots_on_target_conv_rate ∧ t.shots_on_target_conv_rate < 0.4)
    ∧ ((rateTeam t).2 = "Lower Middle Tier" ↔
        0.2 ≤ t.shots_on_target_conv_rate ∧ t.shots_on_target_conv_rate < 0.3)
    ∧ ((rateTeam t).2 = "Bottom Tier" ↔ t.shots_on_target_conv_rate < 0.2) :=
  ⟨rfl, efficiency_rating_top _, efficiency_rating_upper _, efficiency_rating_lower _,
    efficiency_rating_bottom _⟩

/-- C6: the final sort orders team summaries by shots-on-target conversion
rate descending, breaking ties by ascending country name, and is a
permutation of its input. -/
theorem spec_c6 (teams : List (TeamMetrics × String)) :
    List.Pairwise (fun a b =>
      b.1.shots_on_target_conv_rate ≤ a.1.shots_on_target_conv_rate
      ∧ (a.1.shots_on_target_conv_rate = b.1.shots_on_target_conv_rate →
          a.1.country ≤ b.1.country)) (sortTeams teams)
    ∧ (sortTeams teams).Perm teams := by
  constructor
  · have h : List.Pairwise teamSortLe (sortTeams teams) :=
      List.sorted_insertionSort teamSortLe teams
    refine h.imp ?_
    intro a b hab
    rcases hab with h1 | ⟨h1, h2⟩
    · exact ⟨le_of_lt h1, fun he => absurd (he ▸ h1) (lt_irrefl _)⟩
    · exact ⟨le_of_eq h1.symm, fun _ => h2⟩
  · exact List.perm_insertionSort teamSortLe teams

/-- C7: after the squad-split stage the header and every row grow in lockstep
with `"Country_Code"` and the country code at index `squad_idx`, and after
the enrichment stage the two appended rate cells sit exactly under the two
appended header names, the original fields keeping their positions. -/
theorem spec_c7 (pos_idx squad_idx lo hi : ℕ) (headers : List String) (player : Row)
    (hlen : headers.length = player.length) (hsq : squad_idx ≤ player.length) :
    (reshapeHeaders squad_idx headers).length = (reshapeRow pos_idx squad_idx player).length
    ∧ (reshapeHeaders squad_idx headers)[squad_idx]? = some "Country_Code"
    ∧ (reshapeRow pos_idx squad_idx player)[squad_idx]? =
        some (clean_squad ((player.set pos_idx
          (format_player_position (player.getD pos_idx ""))).getD squad_idx "")).1
    ∧ ∀ q, enrichRow lo hi player = some q →
        (enrichHeaders headers).length = q.length
        ∧ q.take player.length = player.map Cell.str
        ∧ (enrichHeaders headers).drop headers.length =
            ["shots_conv_rate", "shots_on_target_conv_rate"]
        ∧ ∃ g s t, get_player_shooting_numbers player lo hi = [g, s, t]
            ∧ q.drop player.length =
                [Cell.num (calculate_shot_conversion_rate g s 3),
                 Cell.num (calculate_shot_conversion_rate g t 3)] := by
  refine ⟨?_, ?_, ?_, ?_⟩
  · simp [reshapeHeaders, reshapeRow, pyInsert_length, List.length_set, hlen]
  · exact getElem?_pyInsert_self _ _ _ (by omega)
  · simp only [reshapeRow]
    rw [List.getElem?_set_ne (by omega)]
    exact getElem?_pyInsert_self _ _ _ (by simp [List.length_set]; omega)
  · intro q hq
    unfold enrichRow at hq
    rcases hparse : get_player_shooting_numbers player lo hi with _ | ⟨g, _ | ⟨s, _ | ⟨t, _ | ⟨u, us⟩⟩⟩⟩ <;>
      simp only [hparse, Option.some.injEq, reduceCtorEq] at hq
    subst hq
    refine ⟨?_, ?_, ?_, g, s, t, rfl, ?_⟩
    · simp [enrichHeaders, hlen]
    · exact List.take_left' (by simp)
    · exact List.drop_left _ _
    · exact List.drop_left' (by simp)

theorem spec_c7_witness :
    (reshapeHeaders 1 ["g", "s", "t"]).length = (reshapeRow 0 1 ["1", "2", "3"]).length
    ∧ (reshapeHeaders 1 ["g", "s", "t"])[1]? = some "Country_Code"
    ∧ (reshapeRow 0 1 ["1", "2", "3"])[1]? =
        some (clean_squad (((["1", "2", "3"] : Row).set 0
          (format_player_position ((["1", "2", "3"] : Row).getD 0 ""))).getD 1 "")).1
    ∧ ∀ q, enrichRow 0 3 ["1", "2", "3"] = some q →
        (enrichHeaders ["g", "s", "t"]).length = q.length
        ∧ q.take (["1", "2", "3"] : Row).length = (["1", "2", "3"] : Row).map Cell.str
        ∧ (enrichHeaders ["g", "s", "t"]).drop (["g", "s", "t"] : List String).length =
            ["shots_conv_rate", "shots_on_target_conv_rate"]
        ∧ ∃ g s t, get_player_shooting_numbers ["1", "2", "3"] 0 3 = [g, s, t]
            ∧ q.drop (["1", "2", "3"] : Row).length =
                [Cell.num (calculate_shot_conversion_rate g s 3),
                 Cell.num (calculate_shot_conversion_rate g t 3)] :=
  spec_c7 0 1 0 3 ["g", "s", "t"] ["1", "2", "3"] rfl (by decide)

/-- C8: each of the three selectors returns a subsequence of its input: every
returned row occurs in the input, in the same relative order. -/
theorem spec_c8 (players : List Row) (pos_idx squad_idx gls_idx : ℕ) (squad : String) :
    List.Sublist (get_multi_position_players players pos_idx) players
    ∧ List.Sublist (get_team players squad_idx squad) players
    ∧ List.Sublist (get_top_scorer players gls_idx) players := by
  refine ⟨List.filter_sublist _, List.filter_sublist _, ?_⟩
  rw [get_top_scorer_eq]
  split
  · exact List.filter_sublist _
  · exact List.nil_sublist _

/-- C9: reformatting a position string is idempotent, because the output of
`format_player_position` never contains a comma. -/
theorem spec_c9 (s : String) :
    format_player_position (format_player_position s) = format_player_position s
    ∧ ',' ∉ (format_player_position s).data := by
  constructor
  · unfold format_player_position
    apply congrArg String.mk
    rw [List.map_map]
    apply List.map_congr_left
    intro c _
    by_cases h : c = ','
    · simp [Function.comp, h]
    · simp [Function.comp, h]
  · intro hmem
    unfold format_player_position at hmem
    simp only [List.mem_map] at hmem
    obtain ⟨c, _, hc⟩ := hmem
    by_cases h : c = ','
    · simp [h] at hc
    · simp [h] at hc

/-- C10: `clean_squad` is total and never raises: the empty string yields
`("", "")` and strings shorter than three characters yield clamped results;
for every string the second component is exactly the characters from index 3
onward (slicing involves no case mapping, so this is fully general); and on
strings whose first two characters are ASCII — the domain where the
per-character uppercase model coincides exactly with Python's
`str.upper()` — the first component is those characters uppercased, of
length `min 2 (length s)`.  Beyond ASCII, Python's full case mapping can
lengthen the prefix, so nothing is claimed there. -/
theorem spec_c10 :
    clean_squad "" = ("", "")
    ∧ clean_squad "a" = ("A", "")
    ∧ clean_squad "ab" = ("AB", "")
    ∧ clean_squad "ng Nigeria" = ("NG", "Nigeria")
    ∧ (∀ s : String, (clean_squad s).2 = ⟨s.data.drop 3⟩
        ∧ (clean_squad s).2.length = s.length - 3)
    ∧ ∀ s : String, (∀ c ∈ s.data.take 2, c.toNat ≤ 127) →
        (clean_squad s).1 = ⟨(s.data.take 2).map Char.toUpper⟩
        ∧ (clean_squad s).1.length = min 2 s.length := by
  refine ⟨by decide, by decide, by decide, by decide, ?_, ?_⟩
  · intro s
    refine ⟨rfl, ?_⟩
    show (s.data.drop 3).length = s.data.length - 3
    rw [List.length_drop]
  · intro s _
    refine ⟨rfl, ?_⟩
    show ((s.data.take 2).map Char.toUpper).length = min 2 s.data.length
    rw [List.length_map, List.length_take]

theorem spec_c10_witness :
    (clean_squad "ng").1 = ⟨(("ng" : String).data.take 2).map Char.toUpper⟩
    ∧ (clean_squad "ng").1.length = min 2 ("ng" : String).length :=
  spec_c10.2.2.2.2.2 "ng" (by decide)
